import Mathlib

/-!
Shallow embedding of the disaster-relief settlement agent
(`disaster_management_system/agents/treasurer.py`) and proofs about it.

Conventions of the embedding:
* Python floats are modelled as exact rationals (`ℚ`); every comparison
  appearing in the claims is far from binary-float rounding boundaries,
  so the control flow of the embedded code matches the source.
* Python dictionaries keyed by transaction id are modelled as association
  lists with Python-dict assignment semantics (`dinsert`: replace in place
  if the key exists, else append).
* Fallible operations (the ledger gateway calls, event parsing) are
  modelled with `Except String`; a `try/except` boundary in the source
  becomes a `match` on the `Except` value.
* `datetime.utcnow()` timestamps are modelled as a rational "seconds"
  value passed in as `now`; `(utcnow - created_at).total_seconds()`
  becomes `now - created_at`.
-/

namespace Treasurer

/-- The original event carried inside a verified event
(`verified_event.original_event`); the treasurer only reads
`disaster_type` from it. -/
structure OriginalEvent where
  disaster_type : String
  deriving Repr, DecidableEq

/-- Modelled from the spec: `VerifiedEvent` (shared/models.py is not in the
sources) — immutable input carrying `event_id`, `disaster_type` (inside
`original_event`), `verification_score`, `human_impact_estimate`,
`funding_recommendation`.  The treasurer reads the three numeric fields via
`getattr(event, field, default)`, so a missing attribute is `none` here and
never raises; accessing a missing `original_event` attribute raises, so
`original_event = none` models that `AttributeError`. -/
structure VerifiedEvent where
  event_id : String
  funding_recommendation : Option ℚ
  verification_score : Option ℚ
  human_impact_estimate : Option ℚ
  original_event : Option OriginalEvent
  deriving Repr, DecidableEq

/-- Treasurer configuration (`config.get` defaults: `min_funding_amount`
0.01, `max_funding_amount` 2.0, `funding_timeout` 300 seconds). -/
structure Config where
  min_funding_amount : ℚ
  max_funding_amount : ℚ
  funding_timeout : ℚ
  deriving Repr, DecidableEq

/-- The default configuration from `TreasurerAgent.__init__`. -/
def defaultConfig : Config :=
  { min_funding_amount := 1/100, max_funding_amount := 2, funding_timeout := 300 }

/-- Round a rational to the nearest integer, ties to even — the semantics of
Python 3's `round` on the exact value. -/
def roundHalfEven (x : ℚ) : ℤ :=
  let f := ⌊x⌋
  let r := x - f
  if r < 1/2 then f
  else if 1/2 < r then f + 1
  else if f % 2 = 0 then f else f + 1

/-- Python `round(x, 6)`: round to 6 fractional digits. -/
def round6 (x : ℚ) : ℚ := (roundHalfEven (x * 1000000) : ℚ) / 1000000

/-- The fixed `disaster_multipliers` lookup of `_calculate_funding_amount`,
with the `.get(disaster_type, 1.0)` default. -/
def disasterMultiplier (t : String) : ℚ :=
  if t = "fire" then 1
  else if t = "flood" then 12/10
  else if t = "structural" then 11/10
  else if t = "casualty" then 3/2
  else 1

/-- The body of `_calculate_funding_amount` inside its `try:` block.  The
only statement of the body that can raise is the attribute access
`verified_event.original_event.disaster_type` (the three numeric fields are
read with `getattr` defaults, and the arithmetic on exact rationals cannot
raise). -/
def calcFundingChecked (cfg : Config) (e : VerifiedEvent) : Except String ℚ :=
  let base0 := e.funding_recommendation.getD cfg.min_funding_amount
  let base := if base0 ≤ 0 then cfg.min_funding_amount else base0
  let verification_factor := (e.verification_score.getD 80) / 100
  let human_impact := e.human_impact_estimate.getD 100
  let impact_factor := min 2 (human_impact / 1000)
  match e.original_event with
  | none => Except.error "AttributeError: original_event"
  | some oe =>
    let disaster_factor := disasterMultiplier oe.disaster_type
    let final_amount := base * verification_factor * impact_factor * disaster_factor
    let final_amount := max cfg.min_funding_amount final_amount
    let final_amount := min cfg.max_funding_amount final_amount
    Except.ok (round6 final_amount)

/-- Embeds `_calculate_funding_amount`: the `try/except` boundary — any fault in
the body yields `min_funding_amount`. -/
def calculate_funding_amount (cfg : Config) (e : VerifiedEvent) : ℚ :=
  match calcFundingChecked cfg e with
  | .ok a => a
  | .error _ => cfg.min_funding_amount

/-- One element of the result list of `send_multiple_transactions`: a Python
dict that optionally holds a `'transaction_hash'` key (`none` models an
absent key — per the spec, a missing reference means the submission of that
recipient's transfer was not accepted). -/
structure TxResult where
  transaction_hash : Option String
  deriving Repr, DecidableEq

/-- The `FundingTransaction` record as constructed in `distribute_funding`
(shared/models.py is not in the sources; the fields are exactly those the
treasurer writes and reads).  `transaction_id` is modelled from the spec:
"generated at creation, unique, never reused" — here a `Nat` drawn from a
fresh counter. -/
structure FundingTransaction where
  transaction_id : Nat
  event_id : String
  recipient_addresses : List String
  amounts : List ℚ
  transaction_hashes : List String
  total_amount : ℚ
  status : String
  timestamp : ℚ
  deriving Repr, DecidableEq

/-- The value stored in `pending_transactions[tx_id]`: the funding
transaction, the raw submission results, and the creation time. -/
structure TxData where
  funding_transaction : FundingTransaction
  transaction_results : List TxResult
  created_at : ℚ
  deriving Repr, DecidableEq

/-- Modelled from the spec: the Ledger Gateway (`BlockchainManager`,
shared/blockchain.py is not in the sources), at the interface the treasurer
consumes — balance query, per-type recipient table, amount split, batch
submission, and per-transfer status query.  Fallible calls return
`Except String`. -/
structure Blockchain where
  get_balance : Except String ℚ
  get_default_recipients : String → List (String × ℚ)
  calculate_recipient_amounts : ℚ → List (String × ℚ) → List (String × ℚ)
  send_multiple_transactions : List (String × ℚ) → Except String (List TxResult)
  get_transaction_status : String → Except String String

/-- The agent's transaction-tracking state: the pending and completed
dictionaries plus the fresh-id counter (modelled from the spec's unique
transaction-id guarantee). -/
structure AgentState where
  pending : List (Nat × TxData)
  completed : List (Nat × TxData)
  next_id : Nat
  deriving Repr, DecidableEq

/-- The empty initial state of `TreasurerAgent.__init__`. -/
def initState : AgentState := { pending := [], completed := [], next_id := 0 }

/-- Keys of an association list. -/
def keysOf (l : List (Nat × TxData)) : List Nat := l.map Prod.fst

/-- Python-dict assignment `d[k] = v`: replace in place if `k` is present,
else append at the end. -/
def dinsert (k : Nat) (v : TxData) (l : List (Nat × TxData)) : List (Nat × TxData) :=
  if k ∈ keysOf l then l.map (fun p => if p.1 = k then (k, v) else p)
  else l ++ [(k, v)]

/-- The body of `distribute_funding` inside its `try:` block.  Returns the
optional funding transaction together with the new state; the only state
mutation (the insert into the pending dictionary) is the last statement
before the return, so a raise anywhere in the body leaves the state
untouched. -/
def distribute_funding_checked (cfg : Config) (bc : Blockchain) (now : ℚ)
    (e : VerifiedEvent) (st : AgentState) :
    Except String (Option FundingTransaction × AgentState) :=
  let funding_amount := calculate_funding_amount cfg e
  if funding_amount < cfg.min_funding_amount then Except.ok (none, st)
  else match bc.get_balance with
  | .error msg => Except.error msg
  | .ok balance =>
    if balance < funding_amount then Except.ok (none, st)
    else match e.original_event with
    | none => Except.error "AttributeError: original_event"
    | some oe =>
      let recipients := bc.get_default_recipients oe.disaster_type
      let recipient_amounts := bc.calculate_recipient_amounts funding_amount recipients
      match bc.send_multiple_transactions recipient_amounts with
      | .error msg => Except.error msg
      | .ok transaction_results =>
        let ft : FundingTransaction :=
          { transaction_id := st.next_id
            event_id := e.event_id
            recipient_addresses := recipient_amounts.map Prod.fst
            amounts := recipient_amounts.map Prod.snd
            transaction_hashes := transaction_results.map (fun r => r.transaction_hash.getD "")
            total_amount := funding_amount
            status := "pending"
            timestamp := now }
        let td : TxData :=
          { funding_transaction := ft, transaction_results := transaction_results
            created_at := now }
        Except.ok (some ft,
          { st with pending := dinsert st.next_id td st.pending, next_id := st.next_id + 1 })

/-- Embeds `distribute_funding`: the `try/except` boundary — any fault in the body
yields `None` and leaves the state unchanged. -/
def distribute_funding (cfg : Config) (bc : Blockchain) (now : ℚ)
    (e : VerifiedEvent) (st : AgentState) : Option FundingTransaction × AgentState :=
  match distribute_funding_checked cfg bc now e st with
  | .ok r => r
  | .error _ => (none, st)

/-- The inbound message as `process_message` sees it: either the dict has no
`'verified_event'` key, or it has one and `VerifiedEvent.from_dict`
(modelled from the spec at the Message Channel interface) either raises
while parsing or yields a `VerifiedEvent`. -/
inductive Message where
  | noEvent
  | badEvent (err : String)
  | event (e : VerifiedEvent)

/-- The structured outcome of `process_message`. -/
inductive Outcome where
  | funding_initiated (transaction_id : Nat) (total_amount : ℚ)
  | funding_failed
  | no_event_to_fund
  | error (msg : String)
  deriving Repr, DecidableEq

/-- Embeds `process_message`: parse the event, distribute funding, and report a
structured outcome; the outer `try/except` turns a parse fault into an
`error` outcome. -/
def process_message (cfg : Config) (bc : Blockchain) (now : ℚ)
    (m : Message) (st : AgentState) : Outcome × AgentState :=
  match m with
  | .noEvent => (.no_event_to_fund, st)
  | .badEvent err => (.error err, st)
  | .event e =>
    match distribute_funding cfg bc now e st with
    | (some ft, st') => (.funding_initiated ft.transaction_id ft.total_amount, st')
    | (none, st') => (.funding_failed, st')

/-- The per-result scan of `_check_pending_transactions`: walk the
submission results carrying `all_confirmed` (initially `True`); a result
without a `'transaction_hash'` key is skipped; a `confirmed` status
continues; a `failed` status breaks out with `any_failed = True`; anything
else clears `all_confirmed`.  A raised fault in the status query propagates
(to the per-entry `except`).  Returns `(all_confirmed, any_failed)`. -/
def scanResults (bc : Blockchain) : List TxResult → Bool → Except String (Bool × Bool)
  | [], allC => .ok (allC, false)
  | r :: rs, allC =>
    match r.transaction_hash with
    | none => scanResults bc rs allC
    | some h =>
      match bc.get_transaction_status h with
      | .error msg => .error msg
      | .ok s =>
        if s = "confirmed" then scanResults bc rs allC
        else if s = "failed" then .ok (allC, true)
        else scanResults bc rs false

/-- Replace the status of the funding transaction stored in a pending
entry (`tx_data['funding_transaction'].status = s`). -/
def setStatus (s : String) (td : TxData) : TxData :=
  { td with funding_transaction := { td.funding_transaction with status := s } }

/-- The per-entry body of `_check_pending_transactions` inside its `try:`
block: scan the results, set `failed`/`confirmed` accordingly, then apply
the timeout check, which overwrites the status once elapsed.  Returns the
(possibly updated) entry data and whether the entry was appended to
`completed_ids`.  A fault in a status query propagates out of the body; it
occurs before any mutation of the entry. -/
def sweepEntryChecked (cfg : Config) (bc : Blockchain) (now : ℚ) (td : TxData) :
    Except String (TxData × Bool) :=
  match scanResults bc td.transaction_results true with
  | .error msg => .error msg
  | .ok (all_confirmed, any_failed) =>
    let (td', done) :=
      if any_failed then (setStatus "failed" td, true)
      else if all_confirmed then (setStatus "confirmed" td, true)
      else (td, false)
    let time_elapsed := now - td.created_at
    if cfg.funding_timeout < time_elapsed then Except.ok (setStatus "timeout" td', true)
    else Except.ok (td', done)

/-- The per-entry `try/except`: a fault leaves the entry unchanged and not
in `completed_ids`. -/
def sweepEntry (cfg : Config) (bc : Blockchain) (now : ℚ) (td : TxData) : TxData × Bool :=
  match sweepEntryChecked cfg bc now td with
  | .ok r => r
  | .error _ => (td, false)

/-- The per-entry outcomes of one sweep over the pending dictionary: each
entry keyed with its updated data and its membership in `completed_ids`. -/
def sweepProcessed (cfg : Config) (bc : Blockchain) (now : ℚ) (st : AgentState) :
    List (Nat × (TxData × Bool)) :=
  st.pending.map (fun p => (p.1, sweepEntry cfg bc now p.2))

/-- The entries of `completed_ids` with their updated data — those a sweep
moves out of the pending dictionary. -/
def sweepMoved (cfg : Config) (bc : Blockchain) (now : ℚ) (st : AgentState) :
    List (Nat × TxData) :=
  (sweepProcessed cfg bc now st).filterMap
    (fun q => if q.2.2 then some (q.1, q.2.1) else none)

/-- The entries a sweep leaves in the pending dictionary. -/
def sweepKept (cfg : Config) (bc : Blockchain) (now : ℚ) (st : AgentState) :
    List (Nat × TxData) :=
  (sweepProcessed cfg bc now st).filterMap
    (fun q => if q.2.2 then none else some (q.1, q.2.1))

/-- Embeds `_check_pending_transactions`: process every pending entry, then move
each entry appended to `completed_ids` from the pending dictionary into the
completed dictionary (`completed[tx_id] = pending.pop(tx_id)`). -/
def check_pending_transactions (cfg : Config) (bc : Blockchain) (now : ℚ)
    (st : AgentState) : AgentState :=
  { st with
    pending := sweepKept cfg bc now st
    completed := (sweepMoved cfg bc now st).foldl (fun c q => dinsert q.1 q.2 c) st.completed }

/-- The outcome dictionary of `emergency_stop_funding` (the timestamp field
is omitted; no claim concerns it). -/
structure StopOutcome where
  status : String
  stopped_transactions : Nat
  deriving Repr, DecidableEq

/-- Embeds `emergency_stop_funding`: count the pending entries, move each to the
completed dictionary with status `stopped`, clear the pending dictionary,
and report the count. -/
def emergency_stop_funding (st : AgentState) : StopOutcome × AgentState :=
  let pending_count := st.pending.length
  let stopped := st.pending.map (fun p => (p.1, setStatus "stopped" p.2))
  ({ status := "emergency_stop_activated", stopped_transactions := pending_count },
   { st with
     pending := []
     completed := stopped.foldl (fun c q => dinsert q.1 q.2 c) st.completed })

/-- The ledger-derived part of the `get_funding_stats` return value.  The
live gateway fields (`account_balance_eth`, `network_info`,
`last_updated`) are pass-throughs of gateway calls and are not modelled;
`status_distribution` is the dictionary initialised to
`{'confirmed': 0, 'failed': 0, 'timeout': 0}` and incremented only when an
entry's status is one of those three keys. -/
structure FundingStats where
  pending_transactions : Nat
  completed_transactions : Nat
  pending_amount_eth : ℚ
  completed_amount_eth : ℚ
  confirmed_count : Nat
  failed_count : Nat
  timeout_count : Nat
  deriving Repr, DecidableEq

/-- Embeds `get_funding_stats` (the state-derived fields). -/
def get_funding_stats (st : AgentState) : FundingStats :=
  { pending_transactions := st.pending.length
    completed_transactions := st.completed.length
    pending_amount_eth :=
      (st.pending.map (fun p => p.2.funding_transaction.total_amount)).sum
    completed_amount_eth :=
      (st.completed.map (fun p => p.2.funding_transaction.total_amount)).sum
    confirmed_count :=
      st.completed.countP (fun p => p.2.funding_transaction.status = "confirmed")
    failed_count :=
      st.completed.countP (fun p => p.2.funding_transaction.status = "failed")
    timeout_count :=
      st.completed.countP (fun p => p.2.funding_transaction.status = "timeout") }

/-- One complete operation at the agent boundary: a full `process_message`
run, a full reconciliation sweep, or an emergency stop. -/
inductive AgentOp where
  | procMsg (bc : Blockchain) (now : ℚ) (m : Message)
  | sweep (bc : Blockchain) (now : ℚ)
  | stop

/-- Apply one operation to the state. -/
def applyOp (cfg : Config) (st : AgentState) : AgentOp → AgentState
  | .procMsg bc now m => (process_message cfg bc now m st).2
  | .sweep bc now => check_pending_transactions cfg bc now st
  | .stop => (emergency_stop_funding st).2

/-- Run a sequence of operations from the empty initial state. -/
def runOps (cfg : Config) (ops : List AgentOp) : AgentState :=
  ops.foldl (applyOp cfg) initState

/-! ### Concrete fixtures used in the claim instances -/

/-- The event of the spec's first testable property: `funding_recommendation
= 0`, `verification_score = 80`, `human_impact_estimate = 100`,
`disaster_type = fire`. -/
def eFire : VerifiedEvent :=
  { event_id := "ev-fire", funding_recommendation := some 0,
    verification_score := some 80, human_impact_estimate := some 100,
    original_event := some ⟨"fire"⟩ }

/-- The event of the spec's end-to-end scenario: `funding_recommendation =
0.01`, `verification_score = 100`, `human_impact_estimate = 2000`,
`disaster_type = casualty`. -/
def eCasualty : VerifiedEvent :=
  { event_id := "ev-casualty", funding_recommendation := some (1/100),
    verification_score := some 100, human_impact_estimate := some 2000,
    original_event := some ⟨"casualty"⟩ }

/-- A fully malformed event: every optional numeric field absent and the
`original_event` attribute missing (its access raises). -/
def eMalformed : VerifiedEvent :=
  { event_id := "ev-bad", funding_recommendation := none,
    verification_score := none, human_impact_estimate := none,
    original_event := none }

/-- A well-behaved ledger gateway: ample balance, one recipient per type,
every submission accepted with reference `"h1"`, and `"h1"` reporting
`confirmed`. -/
def bcOK : Blockchain :=
  { get_balance := .ok 10
    get_default_recipients := fun _ => [("addr1", 1)]
    calculate_recipient_amounts := fun a rs => rs.map (fun r => (r.1, a * r.2))
    send_multiple_transactions := fun xs => .ok (xs.map (fun _ => ⟨some "h1"⟩))
    get_transaction_status := fun h => if h = "h1" then .ok "confirmed" else .error "unknown hash" }

/-- A gateway whose balance query faults. -/
def bcBadBalance : Blockchain :=
  { bcOK with get_balance := .error "rpc down" }

/-- The end-to-end scenario configuration: `min = 0.000001`,
`max = 0.000005`. -/
def cfgScenario : Config :=
  { min_funding_amount := 1/1000000, max_funding_amount := 1/200000, funding_timeout := 300 }

/-- A configuration whose maximum is not representable at 6 fractional
digits: `max = 0.0000016`. -/
def cfgRound : Config :=
  { min_funding_amount := 1/1000000, max_funding_amount := 16/10000000, funding_timeout := 300 }

/-- A pending entry with a partial submission: the first recipient transfer
was accepted (reference `"h1"`), the second was not (no reference). -/
def tdPartial : TxData :=
  { funding_transaction :=
    { transaction_id := 0, event_id := "ev-part", recipient_addresses := ["a", "b"],
      amounts := [1/2, 1/2], transaction_hashes := ["h1", ""], total_amount := 1,
      status := "pending", timestamp := 0 }
    transaction_results := [⟨some "h1"⟩, ⟨none⟩], created_at := 0 }

/-- A state holding only the partial-submission entry. -/
def stPartial : AgentState := { pending := [(0, tdPartial)], completed := [], next_id := 1 }

/-- A state whose completed partition holds one entry with status
`stopped`. -/
def stStopped : AgentState :=
  { pending := [], completed := [(0, setStatus "stopped" tdPartial)], next_id := 1 }

/-- The funding transaction created in the end-to-end scenario
(`cfgScenario`, `eCasualty`, gateway `bcOK`, time 0, empty state). -/
def ftScen : FundingTransaction :=
  { transaction_id := 0, event_id := "ev-casualty", recipient_addresses := ["addr1"],
    amounts := [1/200000], transaction_hashes := ["h1"], total_amount := 1/200000,
    status := "pending", timestamp := 0 }

/-- The pending entry recorded for the end-to-end scenario disbursement. -/
def tdScen : TxData :=
  { funding_transaction := ftScen, transaction_results := [⟨some "h1"⟩], created_at := 0 }

/-- The agent state after the end-to-end scenario disbursement. -/
def stScen : AgentState :=
  { pending := [(0, tdScen)], completed := [], next_id := 1 }

/-- An event whose three optional numeric fields are all missing but whose
`original_event` is present (all `getattr` defaults in play). -/
def eDefaults : VerifiedEvent :=
  { event_id := "ev-defaults", funding_recommendation := none,
    verification_score := none, human_impact_estimate := none,
    original_event := some ⟨"fire"⟩ }

/-- A pending entry whose only transfer reference is unknown to the ledger
(`bcOK` faults on its status query). -/
def tdFault : TxData :=
  { funding_transaction :=
    { transaction_id := 1, event_id := "ev-fault", recipient_addresses := ["a"],
      amounts := [1], transaction_hashes := ["hX"], total_amount := 1,
      status := "pending", timestamp := 0 }
    transaction_results := [⟨some "hX"⟩], created_at := 0 }

/-- A state with the faulting entry and the partial-submission entry both
pending. -/
def stTwo : AgentState :=
  { pending := [(1, tdFault), (0, tdPartial)], completed := [], next_id := 2 }

/-- The funding transaction created by processing `eFire` against `bcOK`
from the empty state at time 0. -/
def ftFire : FundingTransaction :=
  { transaction_id := 0, event_id := "ev-fire", recipient_addresses := ["addr1"],
    amounts := [1/100], transaction_hashes := ["h1"], total_amount := 1/100,
    status := "pending", timestamp := 0 }

/-- The pending entry recorded for `ftFire`. -/
def tdFire : TxData :=
  { funding_transaction := ftFire, transaction_results := [⟨some "h1"⟩], created_at := 0 }

/-- The agent state after processing `eFire` against `bcOK` from the empty
state. -/
def stAfterFire : AgentState :=
  { pending := [(0, tdFire)], completed := [], next_id := 1 }

/-- The bookkeeping invariant of the transaction ledger: each partition has
duplicate-free keys, no transaction id is in both partitions, and every
recorded id is below the fresh-id counter. -/
def PartitionsWF (st : AgentState) : Prop :=
  (keysOf st.pending).Nodup ∧ (keysOf st.completed).Nodup ∧
  (∀ k, ¬(k ∈ keysOf st.pending ∧ k ∈ keysOf st.completed)) ∧
  (∀ k, k ∈ keysOf st.pending ∨ k ∈ keysOf st.completed → k < st.next_id)

/-! ### Helper lemmas -/

theorem setStatus_setStatus (a b : String) (td : TxData) :
    setStatus a (setStatus b td) = setStatus a td := rfl

theorem keysOf_append (l₁ l₂ : List (Nat × TxData)) :
    keysOf (l₁ ++ l₂) = keysOf l₁ ++ keysOf l₂ := List.map_append _ _ _

theorem dinsert_of_not_mem {k : Nat} (v : TxData) {l : List (Nat × TxData)}
    (h : k ∉ keysOf l) : dinsert k v l = l ++ [(k, v)] := by
  simp [dinsert, h]

theorem foldl_dinsert_eq_append (ms c : List (Nat × TxData))
    (hfresh : ∀ k ∈ keysOf ms, k ∉ keysOf c) (hnd : (keysOf ms).Nodup) :
    ms.foldl (fun acc q => dinsert q.1 q.2 acc) c = c ++ ms := by
  induction ms generalizing c with
  | nil => simp
  | cons p ms ih =>
    simp only [List.foldl_cons]
    have hk : p.1 ∉ keysOf c := hfresh p.1 (by simp [keysOf])
    rw [dinsert_of_not_mem p.2 hk]
    rw [ih (c ++ [p])]
    · simp
    · intro k hkms
      rw [keysOf_append]
      simp only [List.mem_append]
      push_neg
      constructor
      · exact hfresh k (by simp [keysOf] at hkms ⊢; right; exact hkms)
      · simp only [keysOf, List.map_cons] at hnd hkms ⊢
        simp only [List.map]
        intro hc
        simp at hc
        rcases hc with hc
        subst hc
        exact (List.nodup_cons.mp hnd).1 hkms
    · simp only [keysOf, List.map_cons, List.nodup_cons] at hnd
      exact hnd.2

theorem eq_of_mem_of_nodup_keys {β : Type} {l : List (Nat × β)} (h : (l.map Prod.fst).Nodup)
    {k : Nat} {v w : β} (hv : (k, v) ∈ l) (hw : (k, w) ∈ l) : v = w := by
  induction l with
  | nil => simp at hv
  | cons p l ih =>
    simp only [List.map_cons, List.nodup_cons] at h
    rcases List.mem_cons.mp hv with hv1 | hv1 <;> rcases List.mem_cons.mp hw with hw1 | hw1
    · rw [← hv1] at hw1; exact (congrArg Prod.snd hw1.symm)
    · exfalso
      have hk : k ∈ l.map Prod.fst := List.mem_map_of_mem Prod.fst hw1
      have hp : p.1 = k := by rw [← hv1]
      exact h.1 (hp ▸ hk)
    · exfalso
      have hk : k ∈ l.map Prod.fst := List.mem_map_of_mem Prod.fst hv1
      have hp : p.1 = k := by rw [← hw1]
      exact h.1 (hp ▸ hk)
    · exact ih h.2 hv1 hw1

theorem keysOf_sweepProcessed (cfg : Config) (bc : Blockchain) (now : ℚ) (st : AgentState) :
    (sweepProcessed cfg bc now st).map Prod.fst = keysOf st.pending := by
  simp [sweepProcessed, keysOf, List.map_map]

theorem keysOf_sweepMoved_sublist (cfg : Config) (bc : Blockchain) (now : ℚ) (st : AgentState) :
    (keysOf (sweepMoved cfg bc now st)).Sublist (keysOf st.pending) := by
  rw [← keysOf_sweepProcessed cfg bc now st]
  unfold sweepMoved
  generalize sweepProcessed cfg bc now st = pl
  induction pl with
  | nil => simp [keysOf]
  | cons q pl ih =>
    simp only [List.filterMap_cons, List.map_cons]
    by_cases h : q.2.2
    · simp only [if_pos h, keysOf, List.map_cons]
      exact ih.cons₂ q.1
    · simp only [if_neg h]
      exact ih.cons q.1

theorem keysOf_sweepKept_sublist (cfg : Config) (bc : Blockchain) (now : ℚ) (st : AgentState) :
    (keysOf (sweepKept cfg bc now st)).Sublist (keysOf st.pending) := by
  rw [← keysOf_sweepProcessed cfg bc now st]
  unfold sweepKept
  generalize sweepProcessed cfg bc now st = pl
  induction pl with
  | nil => simp [keysOf]
  | cons q pl ih =>
    simp only [List.filterMap_cons, List.map_cons]
    by_cases h : q.2.2
    · simp only [if_pos h]
      exact ih.cons q.1
    · simp only [if_neg h, keysOf, List.map_cons]
      exact ih.cons₂ q.1

theorem mem_sweepMoved {cfg : Config} {bc : Blockchain} {now : ℚ} {st : AgentState}
    {id : Nat} {td td2 : TxData} (hmem : (id, td) ∈ st.pending)
    (h : sweepEntry cfg bc now td = (td2, true)) :
    (id, td2) ∈ sweepMoved cfg bc now st := by
  apply List.mem_filterMap.mpr
  refine ⟨(id, sweepEntry cfg bc now td), ?_, ?_⟩
  · exact List.mem_map_of_mem _ hmem
  · simp [h]

theorem mem_sweepKept {cfg : Config} {bc : Blockchain} {now : ℚ} {st : AgentState}
    {id : Nat} {td td2 : TxData} (hmem : (id, td) ∈ st.pending)
    (h : sweepEntry cfg bc now td = (td2, false)) :
    (id, td2) ∈ sweepKept cfg bc now st := by
  apply List.mem_filterMap.mpr
  refine ⟨(id, sweepEntry cfg bc now td), ?_, ?_⟩
  · exact List.mem_map_of_mem _ hmem
  · simp [h]

theorem sweep_completed_eq_append {cfg : Config} {bc : Blockchain} {now : ℚ} {st : AgentState}
    (hnodup : (keysOf st.pending).Nodup)
    (hdisj : ∀ k ∈ keysOf st.pending, k ∉ keysOf st.completed) :
    (check_pending_transactions cfg bc now st).completed =
      st.completed ++ sweepMoved cfg bc now st := by
  apply foldl_dinsert_eq_append
  · intro k hk
    exact hdisj k ((keysOf_sweepMoved_sublist cfg bc now st).mem hk)
  · exact hnodup.sublist (keysOf_sweepMoved_sublist cfg bc now st)

theorem not_mem_kept_of_done {cfg : Config} {bc : Blockchain} {now : ℚ} {st : AgentState}
    {id : Nat} {td td2 : TxData} (hnodup : (keysOf st.pending).Nodup)
    (hmem : (id, td) ∈ st.pending) (hdone : sweepEntry cfg bc now td = (td2, true)) :
    id ∉ keysOf (sweepKept cfg bc now st) := by
  intro hk
  simp only [keysOf, List.mem_map] at hk
  obtain ⟨p, hp, hfst⟩ := hk
  obtain ⟨⟨a, c, d⟩, hq, hsel⟩ := List.mem_filterMap.mp hp
  by_cases hb : d = true
  · simp [hb] at hsel
  · simp only [Bool.not_eq_true] at hb
    subst hb
    simp at hsel
    have hmem2 : ((id, (td2, true)) : Nat × (TxData × Bool)) ∈ sweepProcessed cfg bc now st :=
      List.mem_map.mpr ⟨(id, td), hmem, by simp [hdone]⟩
    have ha : a = id := by rw [← hfst, ← hsel]
    subst ha
    have hkeys : ((sweepProcessed cfg bc now st).map Prod.fst).Nodup := by
      rw [keysOf_sweepProcessed]; exact hnodup
    have heq := eq_of_mem_of_nodup_keys hkeys hmem2 hq
    simp at heq

theorem roundHalfEven_le_ceil (x : ℚ) : roundHalfEven x ≤ ⌈x⌉ := by
  have hle : ⌊x⌋ ≤ ⌈x⌉ := Int.floor_le_ceil x
  have key : (⌊x⌋ : ℚ) < x → ⌊x⌋ + 1 ≤ ⌈x⌉ := by
    intro hlt
    have h2 : (⌊x⌋ : ℚ) < (⌈x⌉ : ℚ) := lt_of_lt_of_le hlt (Int.le_ceil x)
    have h3 : ⌊x⌋ < ⌈x⌉ := by exact_mod_cast h2
    omega
  simp only [roundHalfEven]
  split_ifs with h1 h2 h3
  · exact hle
  · apply key
    have : (0 : ℚ) < x - ⌊x⌋ := lt_trans (by norm_num) h2
    linarith
  · exact hle
  · apply key
    have hr : x - ⌊x⌋ = 1/2 := le_antisymm (not_lt.mp h2) (not_lt.mp h1)
    linarith

theorem round6_le_of_le {x M : ℚ} {n : ℤ} (hn : (n : ℚ) = 1000000 * M) (h : x ≤ M) :
    round6 x ≤ M := by
  unfold round6
  have h1 : roundHalfEven (x * 1000000) ≤ ⌈x * 1000000⌉ := roundHalfEven_le_ceil _
  have h2 : ⌈x * 1000000⌉ ≤ n := by
    apply Int.ceil_le.mpr
    rw [hn]
    linarith
  have h3 : (roundHalfEven (x * 1000000) : ℚ) ≤ (n : ℚ) := by exact_mod_cast le_trans h1 h2
  rw [hn] at h3
  linarith

theorem calculate_le_max (cfg : Config) (e : VerifiedEvent) {n : ℤ}
    (hn : (n : ℚ) = 1000000 * cfg.max_funding_amount)
    (hmm : cfg.min_funding_amount ≤ cfg.max_funding_amount) :
    calculate_funding_amount cfg e ≤ cfg.max_funding_amount := by
  unfold calculate_funding_amount calcFundingChecked
  cases ho : e.original_event with
  | none => simpa using hmm
  | some oe =>
    simp only []
    exact round6_le_of_le hn (min_le_left _ _)

theorem distribute_funding_of_error {cfg : Config} {bc : Blockchain} {now : ℚ}
    {e : VerifiedEvent} {st : AgentState} {msg : String}
    (h : distribute_funding_checked cfg bc now e st = .error msg) :
    distribute_funding cfg bc now e st = (none, st) := by
  unfold distribute_funding
  rw [h]

theorem distribute_funding_shape (cfg : Config) (bc : Blockchain) (now : ℚ)
    (e : VerifiedEvent) (st : AgentState) :
    distribute_funding cfg bc now e st = (none, st) ∨
    ∃ ft td,
      distribute_funding cfg bc now e st =
        (some ft,
          { st with pending := dinsert st.next_id td st.pending, next_id := st.next_id + 1 }) ∧
      ft.total_amount = calculate_funding_amount cfg e ∧
      ft.transaction_id = st.next_id ∧
      cfg.min_funding_amount ≤ calculate_funding_amount cfg e := by
  simp only [distribute_funding, distribute_funding_checked]
  by_cases h1 : calculate_funding_amount cfg e < cfg.min_funding_amount
  · rw [if_pos h1]; left; rfl
  · rw [if_neg h1]
    cases hb : bc.get_balance with
    | error msg => left; rfl
    | ok balance =>
      dsimp only []
      by_cases h2 : balance < calculate_funding_amount cfg e
      · rw [if_pos h2]; left; rfl
      · rw [if_neg h2]
        cases ho : e.original_event with
        | none => left; rfl
        | some oe =>
          dsimp only []
          cases hs : bc.send_multiple_transactions
              (bc.calculate_recipient_amounts (calculate_funding_amount cfg e)
                (bc.get_default_recipients oe.disaster_type)) with
          | error msg => left; rfl
          | ok rs => right; exact ⟨_, _, rfl, rfl, rfl, not_lt.mp h1⟩

theorem distribute_funding_total {cfg : Config} {bc : Blockchain} {now : ℚ}
    {e : VerifiedEvent} {st : AgentState} (ft : FundingTransaction)
    (hft : (distribute_funding cfg bc now e st).1 = some ft) :
    ft.total_amount = calculate_funding_amount cfg e ∧
    cfg.min_funding_amount ≤ calculate_funding_amount cfg e := by
  rcases distribute_funding_shape cfg bc now e st with h | ⟨ft2, td, heq, htot, hid, hmin⟩
  · rw [h] at hft; simp at hft
  · rw [heq] at hft
    simp at hft
    subst hft
    exact ⟨htot, hmin⟩

/-! ### Concrete evaluations -/

theorem calc_eFire : calculate_funding_amount defaultConfig eFire = 1/100 := by
  simp only [calculate_funding_amount, calcFundingChecked, defaultConfig, eFire, round6,
    roundHalfEven, disasterMultiplier, Option.getD]
  norm_num [min_def, max_def, Int.fract]

theorem calc_eDefaults : calculate_funding_amount defaultConfig eDefaults = 1/100 := by
  simp only [calculate_funding_amount, calcFundingChecked, defaultConfig, eDefaults, round6,
    roundHalfEven, disasterMultiplier, Option.getD]
  norm_num [min_def, max_def, Int.fract]

theorem calc_scenario : calculate_funding_amount cfgScenario eCasualty = 1/200000 := by
  unfold calculate_funding_amount calcFundingChecked
  dsimp only [cfgScenario, eCasualty, Option.getD]
  rw [if_neg (by norm_num : ¬((1:ℚ)/100 ≤ 0))]
  rw [show min (2:ℚ) (2000/1000) = 2 by norm_num [min_def]]
  rw [show disasterMultiplier "casualty" = 3/2 by simp [disasterMultiplier]]
  rw [show max ((1:ℚ)/1000000) (1/100 * (100/100) * 2 * (3/2)) = 3/100 by norm_num [max_def]]
  rw [show min ((1:ℚ)/200000) (3/100) = 1/200000 by norm_num [min_def]]
  rw [show round6 ((1:ℚ)/200000) = 1/200000 by
    simp only [round6, roundHalfEven]
    norm_num]

theorem calc_round : calculate_funding_amount cfgRound eCasualty = 1/500000 := by
  unfold calculate_funding_amount calcFundingChecked
  dsimp only [cfgRound, eCasualty, Option.getD]
  rw [if_neg (by norm_num : ¬((1:ℚ)/100 ≤ 0))]
  rw [show min (2:ℚ) (2000/1000) = 2 by norm_num [min_def]]
  rw [show disasterMultiplier "casualty" = 3/2 by simp [disasterMultiplier]]
  rw [show max ((1:ℚ)/1000000) (1/100 * (100/100) * 2 * (3/2)) = 3/100 by norm_num [max_def]]
  rw [show min ((16:ℚ)/10000000) (3/100) = 16/10000000 by norm_num [min_def]]
  rw [show round6 ((16:ℚ)/10000000) = 1/500000 by
    simp only [round6, roundHalfEven]
    norm_num]

theorem dist_eFire_general (bc : Blockchain) (now : ℚ) (st : AgentState) (b : ℚ)
    (rs : List TxResult) (hbal : bc.get_balance = .ok b) (hble : (1:ℚ)/100 ≤ b)
    (hsend : bc.send_multiple_transactions
      (bc.calculate_recipient_amounts (1/100) (bc.get_default_recipients "fire")) = .ok rs) :
    Option.map (fun ft => ft.total_amount)
      (distribute_funding defaultConfig bc now eFire st).1 = some (1/100) := by
  simp only [distribute_funding, distribute_funding_checked, calc_eFire]
  rw [if_neg (by norm_num [defaultConfig] : ¬((1:ℚ)/100 < defaultConfig.min_funding_amount))]
  rw [hbal]
  dsimp only []
  rw [if_neg (not_lt.mpr hble)]
  simp only [eFire]
  rw [hsend]
  rfl

theorem dist_eDefaults_general (bc : Blockchain) (now : ℚ) (st : AgentState) (b : ℚ)
    (rs : List TxResult) (hbal : bc.get_balance = .ok b) (hble : (1:ℚ)/100 ≤ b)
    (hsend : bc.send_multiple_transactions
      (bc.calculate_recipient_amounts (1/100) (bc.get_default_recipients "fire")) = .ok rs) :
    Option.map (fun ft => ft.total_amount)
      (distribute_funding defaultConfig bc now eDefaults st).1 = some (1/100) := by
  simp only [distribute_funding, distribute_funding_checked, calc_eDefaults]
  rw [if_neg (by norm_num [defaultConfig] : ¬((1:ℚ)/100 < defaultConfig.min_funding_amount))]
  rw [hbal]
  dsimp only []
  rw [if_neg (not_lt.mpr hble)]
  simp only [eDefaults]
  rw [hsend]
  rfl

theorem dist_scenario_general (bc : Blockchain) (now : ℚ) (st : AgentState) (b : ℚ)
    (rs : List TxResult) (hbal : bc.get_balance = .ok b) (hble : (1:ℚ)/200000 ≤ b)
    (hsend : bc.send_multiple_transactions
      (bc.calculate_recipient_amounts (1/200000) (bc.get_default_recipients "casualty")) = .ok rs) :
    Option.map (fun ft => ft.total_amount)
      (distribute_funding cfgScenario bc now eCasualty st).1 = some (1/200000) := by
  simp only [distribute_funding, distribute_funding_checked, calc_scenario]
  rw [if_neg (by norm_num [cfgScenario] : ¬((1:ℚ)/200000 < cfgScenario.min_funding_amount))]
  rw [hbal]
  dsimp only []
  rw [if_neg (not_lt.mpr hble)]
  simp only [eCasualty]
  rw [hsend]
  rfl

theorem dist_round_general (bc : Blockchain) (now : ℚ) (st : AgentState) (b : ℚ)
    (rs : List TxResult) (hbal : bc.get_balance = .ok b) (hble : (1:ℚ)/500000 ≤ b)
    (hsend : bc.send_multiple_transactions
      (bc.calculate_recipient_amounts (1/500000) (bc.get_default_recipients "casualty")) = .ok rs) :
    Option.map (fun ft => ft.total_amount)
      (distribute_funding cfgRound bc now eCasualty st).1 = some (1/500000) := by
  simp only [distribute_funding, distribute_funding_checked, calc_round]
  rw [if_neg (by norm_num [cfgRound] : ¬((1:ℚ)/500000 < cfgRound.min_funding_amount))]
  rw [hbal]
  dsimp only []
  rw [if_neg (not_lt.mpr hble)]
  simp only [eCasualty]
  rw [hsend]
  rfl

theorem dist_scenario_eq :
    distribute_funding cfgScenario bcOK 0 eCasualty initState = (some ftScen, stScen) := by
  simp only [distribute_funding, distribute_funding_checked, calc_scenario]
  rw [if_neg (by norm_num [cfgScenario] : ¬((1:ℚ)/200000 < cfgScenario.min_funding_amount))]
  simp only [bcOK, eCasualty]
  rw [if_neg (by norm_num : ¬((10:ℚ) < 1/200000))]
  norm_num [ftScen, stScen, tdScen, initState, dinsert, keysOf]

theorem checked_badBalance :
    distribute_funding_checked defaultConfig bcBadBalance 0 eFire initState =
      .error "rpc down" := by
  simp only [distribute_funding_checked, calc_eFire]
  rw [if_neg (by norm_num [defaultConfig] : ¬((1:ℚ)/100 < defaultConfig.min_funding_amount))]
  simp only [bcBadBalance, bcOK]

theorem sweepEntry_timeout {cfg : Config} {bc : Blockchain} {now : ℚ} {td : TxData}
    {aC aF : Bool} (hscan : scanResults bc td.transaction_results true = .ok (aC, aF))
    (htime : cfg.funding_timeout < now - td.created_at) :
    sweepEntry cfg bc now td = (setStatus "timeout" td, true) := by
  simp only [sweepEntry, sweepEntryChecked]
  rw [hscan]
  dsimp only []
  cases aF <;> cases aC <;> simp [htime, setStatus_setStatus]

theorem sweepEntry_of_checked_error {cfg : Config} {bc : Blockchain} {now : ℚ} {td : TxData}
    {msg : String} (h : sweepEntryChecked cfg bc now td = .error msg) :
    sweepEntry cfg bc now td = (td, false) := by
  simp only [sweepEntry]
  rw [h]

theorem mem_keysOf_iff {l : List (Nat × TxData)} {k : Nat} :
    k ∈ keysOf l ↔ ∃ v, (k, v) ∈ l := by
  simp only [keysOf, List.mem_map]
  constructor
  · rintro ⟨⟨a, b⟩, hm, rfl⟩
    exact ⟨b, hm⟩
  · rintro ⟨v, hv⟩
    exact ⟨(k, v), hv, rfl⟩

theorem of_mem_sweepKept {cfg : Config} {bc : Blockchain} {now : ℚ} {st : AgentState}
    {k : Nat} {v : TxData} (h : (k, v) ∈ sweepKept cfg bc now st) :
    (k, (v, false)) ∈ sweepProcessed cfg bc now st := by
  obtain ⟨⟨a, c, d⟩, hq, hsel⟩ := List.mem_filterMap.mp h
  by_cases hb : d = true
  · simp [hb] at hsel
  · simp only [Bool.not_eq_true] at hb
    subst hb
    simp only [if_neg] at hsel
    simp at hsel
    obtain ⟨h1, h2⟩ := hsel
    subst h1
    subst h2
    exact hq

theorem of_mem_sweepMoved {cfg : Config} {bc : Blockchain} {now : ℚ} {st : AgentState}
    {k : Nat} {v : TxData} (h : (k, v) ∈ sweepMoved cfg bc now st) :
    (k, (v, true)) ∈ sweepProcessed cfg bc now st := by
  obtain ⟨⟨a, c, d⟩, hq, hsel⟩ := List.mem_filterMap.mp h
  by_cases hb : d = true
  · subst hb
    simp at hsel
    obtain ⟨h1, h2⟩ := hsel
    subst h1
    subst h2
    exact hq
  · simp [hb] at hsel

theorem kept_moved_keys_disjoint {cfg : Config} {bc : Blockchain} {now : ℚ} {st : AgentState}
    (hnodup : (keysOf st.pending).Nodup) (k : Nat)
    (h1 : k ∈ keysOf (sweepKept cfg bc now st))
    (h2 : k ∈ keysOf (sweepMoved cfg bc now st)) : False := by
  obtain ⟨v, hv⟩ := mem_keysOf_iff.mp h1
  obtain ⟨w, hw⟩ := mem_keysOf_iff.mp h2
  have hkeys : ((sweepProcessed cfg bc now st).map Prod.fst).Nodup := by
    rw [keysOf_sweepProcessed]
    exact hnodup
  have := eq_of_mem_of_nodup_keys hkeys (of_mem_sweepKept hv) (of_mem_sweepMoved hw)
  simp at this

theorem WF_initState : PartitionsWF initState := by
  simp [PartitionsWF, initState, keysOf]

theorem WF_procMsg (cfg : Config) (bc : Blockchain) (now : ℚ) (m : Message)
    {st : AgentState} (h : PartitionsWF st) :
    PartitionsWF (process_message cfg bc now m st).2 := by
  obtain ⟨hnp, hnc, hdisj, hbound⟩ := h
  cases m with
  | noEvent => exact ⟨hnp, hnc, hdisj, hbound⟩
  | badEvent err => exact ⟨hnp, hnc, hdisj, hbound⟩
  | event e =>
    have hstate : (process_message cfg bc now (.event e) st).2 =
        (distribute_funding cfg bc now e st).2 := by
      simp only [process_message]
      cases hd : distribute_funding cfg bc now e st with
      | mk o st2 => cases o <;> rfl
    rw [hstate]
    rcases distribute_funding_shape cfg bc now e st with hnone | ⟨ft, td, heq, _, _, _⟩
    · rw [hnone]
      exact ⟨hnp, hnc, hdisj, hbound⟩
    · rw [heq]
      dsimp only []
      have hfresh : st.next_id ∉ keysOf st.pending := fun hmem =>
        lt_irrefl _ (hbound _ (Or.inl hmem))
      rw [dinsert_of_not_mem _ hfresh]
      refine ⟨?_, hnc, ?_, ?_⟩
      · rw [keysOf_append]
        refine List.Nodup.append hnp (by simp [keysOf]) ?_
        intro a ha hb
        simp [keysOf] at hb
        subst hb
        exact hfresh ha
      · intro k hk
        rw [keysOf_append] at hk
        obtain ⟨hk1, hk2⟩ := hk
        rcases List.mem_append.mp hk1 with h1 | h1
        · exact hdisj k ⟨h1, hk2⟩
        · simp [keysOf] at h1
          subst h1
          exact lt_irrefl _ (hbound _ (Or.inr hk2))
      · intro k hk
        rcases hk with hk | hk
        · rw [keysOf_append] at hk
          rcases List.mem_append.mp hk with h1 | h1
          · exact Nat.lt_succ_of_lt (hbound _ (Or.inl h1))
          · simp [keysOf] at h1
            subst h1
            exact Nat.lt_succ_self _
        · exact Nat.lt_succ_of_lt (hbound _ (Or.inr hk))

theorem WF_sweep (cfg : Config) (bc : Blockchain) (now : ℚ) {st : AgentState}
    (h : PartitionsWF st) : PartitionsWF (check_pending_transactions cfg bc now st) := by
  obtain ⟨hnp, hnc, hdisj, hbound⟩ := h
  have happ := @sweep_completed_eq_append cfg bc now st hnp
    (fun k hk hkc => hdisj k ⟨hk, hkc⟩)
  have hkept := keysOf_sweepKept_sublist cfg bc now st
  have hmoved := keysOf_sweepMoved_sublist cfg bc now st
  refine ⟨hnp.sublist hkept, ?_, ?_, ?_⟩
  · show (keysOf (check_pending_transactions cfg bc now st).completed).Nodup
    rw [happ, keysOf_append]
    exact List.Nodup.append hnc (hnp.sublist hmoved)
      (fun a ha hb => hdisj a ⟨hmoved.mem hb, ha⟩)
  · intro k hk
    obtain ⟨hk1, hk2⟩ := hk
    rw [show (check_pending_transactions cfg bc now st).completed =
      st.completed ++ sweepMoved cfg bc now st from happ, keysOf_append] at hk2
    rcases List.mem_append.mp hk2 with h1 | h1
    · exact hdisj k ⟨hkept.mem hk1, h1⟩
    · exact kept_moved_keys_disjoint hnp k hk1 h1
  · intro k hk
    show k < st.next_id
    rcases hk with hk | hk
    · exact hbound k (Or.inl (hkept.mem hk))
    · rw [show (check_pending_transactions cfg bc now st).completed =
        st.completed ++ sweepMoved cfg bc now st from happ, keysOf_append] at hk
      rcases List.mem_append.mp hk with h1 | h1
      · exact hbound k (Or.inr h1)
      · exact hbound k (Or.inl (hmoved.mem h1))

theorem stop_completed_eq_append {st : AgentState} (hnp : (keysOf st.pending).Nodup)
    (hdisj : ∀ k ∈ keysOf st.pending, k ∉ keysOf st.completed) :
    (emergency_stop_funding st).2.completed =
      st.completed ++ st.pending.map (fun p => (p.1, setStatus "stopped" p.2)) := by
  have hkeys : keysOf (st.pending.map (fun p => (p.1, setStatus "stopped" p.2))) =
      keysOf st.pending := by
    simp [keysOf, List.map_map]
  apply foldl_dinsert_eq_append
  · intro k hk
    rw [hkeys] at hk
    exact hdisj k hk
  · rw [hkeys]
    exact hnp

theorem WF_stop {st : AgentState} (h : PartitionsWF st) :
    PartitionsWF (emergency_stop_funding st).2 := by
  obtain ⟨hnp, hnc, hdisj, hbound⟩ := h
  have happ := stop_completed_eq_append hnp (fun k hk hkc => hdisj k ⟨hk, hkc⟩)
  have hkeys : keysOf (st.pending.map (fun p => (p.1, setStatus "stopped" p.2))) =
      keysOf st.pending := by
    simp [keysOf, List.map_map]
  have hpend : (emergency_stop_funding st).2.pending = [] := rfl
  refine ⟨by rw [hpend]; simp [keysOf], ?_, ?_, ?_⟩
  · rw [show (keysOf (emergency_stop_funding st).2.completed) =
      keysOf (st.completed ++ st.pending.map (fun p => (p.1, setStatus "stopped" p.2)))
      from congrArg keysOf happ, keysOf_append, hkeys]
    exact List.Nodup.append hnc hnp (fun a ha hb => hdisj a ⟨hb, ha⟩)
  · intro k hk
    obtain ⟨hk1, _⟩ := hk
    rw [hpend] at hk1
    simp [keysOf] at hk1
  · intro k hk
    show k < st.next_id
    rcases hk with hk | hk
    · rw [hpend] at hk
      simp [keysOf] at hk
    · rw [show (keysOf (emergency_stop_funding st).2.completed) =
        keysOf (st.completed ++ st.pending.map (fun p => (p.1, setStatus "stopped" p.2)))
        from congrArg keysOf happ, keysOf_append, hkeys] at hk
      rcases List.mem_append.mp hk with h1 | h1
      · exact hbound k (Or.inr h1)
      · exact hbound k (Or.inl h1)

theorem WF_applyOp (cfg : Config) {st : AgentState} (h : PartitionsWF st) (op : AgentOp) :
    PartitionsWF (applyOp cfg st op) := by
  cases op with
  | procMsg bc now m => exact WF_procMsg cfg bc now m h
  | sweep bc now => exact WF_sweep cfg bc now h
  | stop => exact WF_stop h

theorem WF_foldl (cfg : Config) (ops : List AgentOp) {st : AgentState} (h : PartitionsWF st) :
    PartitionsWF (ops.foldl (applyOp cfg) st) := by
  induction ops generalizing st with
  | nil => exact h
  | cons op ops ih => exact ih (WF_applyOp cfg h op)

theorem WF_runOps (cfg : Config) (ops : List AgentOp) : PartitionsWF (runOps cfg ops) :=
  WF_foldl cfg ops WF_initState

theorem sweep_exactly_one (cfg : Config) (bc : Blockchain) (now : ℚ) {st : AgentState}
    (h : PartitionsWF st) (k : Nat) (hk : k ∈ keysOf st.pending) :
    (k ∈ keysOf (check_pending_transactions cfg bc now st).pending ∨
     k ∈ keysOf (check_pending_transactions cfg bc now st).completed) ∧
    ¬(k ∈ keysOf (check_pending_transactions cfg bc now st).pending ∧
      k ∈ keysOf (check_pending_transactions cfg bc now st).completed) := by
  obtain ⟨hnp, hnc, hdisj, hbound⟩ := h
  constructor
  · obtain ⟨td, htd⟩ := mem_keysOf_iff.mp hk
    rcases hsw : sweepEntry cfg bc now td with ⟨td2, done⟩
    cases done with
    | false =>
      left
      exact mem_keysOf_iff.mpr ⟨td2, mem_sweepKept htd hsw⟩
    | true =>
      right
      rw [show (check_pending_transactions cfg bc now st).completed =
        st.completed ++ sweepMoved cfg bc now st from
        sweep_completed_eq_append hnp (fun a ha hb => hdisj a ⟨ha, hb⟩), keysOf_append]
      exact List.mem_append_right _ (mem_keysOf_iff.mpr ⟨td2, mem_sweepMoved htd hsw⟩)
  · exact (WF_sweep cfg bc now ⟨hnp, hnc, hdisj, hbound⟩).2.2.1 k

theorem dist_eFire_eq :
    distribute_funding defaultConfig bcOK 0 eFire initState = (some ftFire, stAfterFire) := by
  simp only [distribute_funding, distribute_funding_checked, calc_eFire]
  rw [if_neg (by norm_num [defaultConfig] : ¬((1:ℚ)/100 < defaultConfig.min_funding_amount))]
  simp only [bcOK, eFire]
  rw [if_neg (by norm_num : ¬((10:ℚ) < 1/100))]
  norm_num [ftFire, stAfterFire, tdFire, initState, dinsert, keysOf]

theorem run_fire :
    runOps defaultConfig [.procMsg bcOK 0 (.event eFire)] = stAfterFire := by
  simp only [runOps, List.foldl, applyOp, process_message, dist_eFire_eq]

/-! ### The claims -/

/-- C1: the claim fails on the code.  For the stated event
(`funding_recommendation` 0, `verification_score` 80,
`human_impact_estimate` 100, fire, min 0.01, max 2.0) the raw policy amount
0.01 × 0.8 × 0.1 × 1 = 0.0008 is below the minimum, but
`_calculate_funding_amount` clamps it up to 0.01, so `distribute_funding`
does not reject: a disbursement of exactly 0.01 is created. -/
theorem C1_counterexample :
    (1:ℚ)/100 * (80/100) * (100/1000) * 1 < defaultConfig.min_funding_amount ∧
    calculate_funding_amount defaultConfig eFire = defaultConfig.min_funding_amount ∧
    Option.map (fun ft => ft.total_amount)
      (distribute_funding defaultConfig bcOK 0 eFire initState).1 = some (1/100) := by
  refine ⟨by norm_num [defaultConfig], ?_, ?_⟩
  · rw [calc_eFire]
    norm_num [defaultConfig]
  · exact dist_eFire_general bcOK 0 initState 10 [⟨some "h1"⟩] rfl (by norm_num) rfl

/-- C1 (amended): `_calculate_funding_amount` clamps a below-minimum raw
amount up to `min_funding_amount` instead of rejecting, so the
below-minimum check in `distribute_funding` does not fire for the stated
event: the computed amount is exactly 0.01 = min, and whenever the ledger
reports a sufficient balance and accepts the submission, a disbursement of
0.01 is created (no rejection). -/
theorem C1_theorem (bc : Blockchain) (now : ℚ) (st : AgentState) (b : ℚ)
    (rs : List TxResult) (hbal : bc.get_balance = .ok b) (hble : (1:ℚ)/100 ≤ b)
    (hsend : bc.send_multiple_transactions
      (bc.calculate_recipient_amounts (1/100) (bc.get_default_recipients "fire")) = .ok rs) :
    calculate_funding_amount defaultConfig eFire = defaultConfig.min_funding_amount ∧
    Option.map (fun ft => ft.total_amount)
      (distribute_funding defaultConfig bc now eFire st).1 = some (1/100) := by
  refine ⟨?_, dist_eFire_general bc now st b rs hbal hble hsend⟩
  rw [calc_eFire]
  norm_num [defaultConfig]

/-- Witness for C1: the amended statement at the concrete gateway `bcOK`. -/
theorem C1_witness :
    calculate_funding_amount defaultConfig eFire = defaultConfig.min_funding_amount ∧
    Option.map (fun ft => ft.total_amount)
      (distribute_funding defaultConfig bcOK 0 eFire initState).1 = some (1/100) :=
  C1_theorem bcOK 0 initState 10 [⟨some "h1"⟩] rfl (by norm_num) rfl

/-- C2: evaluation of the code at the failing input.  A pending entry whose
second recipient transfer was not accepted (its submission result carries
no `transaction_hash`) is marked `confirmed` by the very first sweep,
because `_check_pending_transactions` skips results without a hash; the
entry moves to the completed partition as `confirmed` and is never judged
`failed`, contradicting the claim (and the spec's requirement). -/
theorem C2_theorem :
    check_pending_transactions defaultConfig bcOK 10 stPartial =
      { pending := [], completed := [(0, setStatus "confirmed" tdPartial)], next_id := 1 } := by
  simp only [check_pending_transactions, sweepProcessed, sweepMoved, sweepKept, sweepEntry,
    sweepEntryChecked, scanResults, bcOK, stPartial, tdPartial, setStatus, dinsert, keysOf,
    List.map, List.filterMap, List.foldl]
  norm_num [defaultConfig]

/-- C3: for every pending entry whose per-transfer status checks complete
(with any confirm/fail result `aC`, `aF`), if the elapsed wall-clock time
exceeds the funding timeout, the sweep's final status for the entry is
`timeout`: the entry lands in the completed partition with status
`timeout` and leaves the pending partition — the timeout check runs after
the confirm/fail determination and overwrites it. -/
theorem C3_theorem (cfg : Config) (bc : Blockchain) (now : ℚ) (st : AgentState)
    (id : Nat) (td : TxData) (aC aF : Bool)
    (hnodup : (keysOf st.pending).Nodup)
    (hdisj : ∀ k ∈ keysOf st.pending, k ∉ keysOf st.completed)
    (hmem : (id, td) ∈ st.pending)
    (hscan : scanResults bc td.transaction_results true = .ok (aC, aF))
    (htime : cfg.funding_timeout < now - td.created_at) :
    (id, setStatus "timeout" td) ∈ (check_pending_transactions cfg bc now st).completed ∧
    id ∉ keysOf (check_pending_transactions cfg bc now st).pending := by
  have hsw := sweepEntry_timeout hscan htime
  constructor
  · rw [sweep_completed_eq_append hnodup hdisj]
    exact List.mem_append_right _ (mem_sweepMoved hmem hsw)
  · exact not_mem_kept_of_done hnodup hmem hsw

/-- Witness for C3: the partial entry at time 400 (timeout 300): the
status checks resolve to all-confirmed, yet the entry is timed out. -/
theorem C3_witness :
    (0, setStatus "timeout" tdPartial) ∈
      (check_pending_transactions defaultConfig bcOK 400 stPartial).completed ∧
    0 ∉ keysOf (check_pending_transactions defaultConfig bcOK 400 stPartial).pending :=
  C3_theorem defaultConfig bcOK 400 stPartial 0 tdPartial true false
    (by simp [stPartial, keysOf]) (by simp [stPartial, keysOf]) (by simp [stPartial])
    (by rfl) (by norm_num [defaultConfig, tdPartial])

/-- C4: starting from the empty ledger, after any sequence of complete
operations (message processing, reconciliation sweeps, emergency stops) the
pending and completed partitions have duplicate-free key sets and are
disjoint; moreover a further sweep sends every pending transaction id to
exactly one of the two partitions (never both, never neither). -/
theorem C4_theorem (cfg : Config) (ops : List AgentOp) :
    ((keysOf (runOps cfg ops).pending).Nodup ∧
     (keysOf (runOps cfg ops).completed).Nodup ∧
     ∀ k, ¬(k ∈ keysOf (runOps cfg ops).pending ∧ k ∈ keysOf (runOps cfg ops).completed)) ∧
    (∀ (bc : Blockchain) (now : ℚ) (k : Nat), k ∈ keysOf (runOps cfg ops).pending →
      ((k ∈ keysOf (check_pending_transactions cfg bc now (runOps cfg ops)).pending ∨
        k ∈ keysOf (check_pending_transactions cfg bc now (runOps cfg ops)).completed) ∧
       ¬(k ∈ keysOf (check_pending_transactions cfg bc now (runOps cfg ops)).pending ∧
         k ∈ keysOf (check_pending_transactions cfg bc now (runOps cfg ops)).completed))) := by
  have h := WF_runOps cfg ops
  exact ⟨⟨h.1, h.2.1, h.2.2.1⟩, fun bc now k hk => sweep_exactly_one cfg bc now h k hk⟩

/-- Witness for C4: after processing one fire event, transaction id 0 is
pending; the timed-out sweep moves it to exactly one partition. -/
theorem C4_witness :
    (0 ∈ keysOf (check_pending_transactions defaultConfig bcOK 400
        (runOps defaultConfig [.procMsg bcOK 0 (.event eFire)])).pending ∨
     0 ∈ keysOf (check_pending_transactions defaultConfig bcOK 400
        (runOps defaultConfig [.procMsg bcOK 0 (.event eFire)])).completed) ∧
    ¬(0 ∈ keysOf (check_pending_transactions defaultConfig bcOK 400
        (runOps defaultConfig [.procMsg bcOK 0 (.event eFire)])).pending ∧
      0 ∈ keysOf (check_pending_transactions defaultConfig bcOK 400
        (runOps defaultConfig [.procMsg bcOK 0 (.event eFire)])).completed) :=
  (C4_theorem defaultConfig [.procMsg bcOK 0 (.event eFire)]).2 bcOK 400 0
    (by rw [run_fire]; simp [stAfterFire, keysOf])

/-- C5: emergency stop empties the pending partition, grows the completed
partition by exactly the number of previously pending entries, marks every
moved entry `stopped`, and reports that count. -/
theorem C5_theorem (st : AgentState)
    (hnodup : (keysOf st.pending).Nodup)
    (hdisj : ∀ k ∈ keysOf st.pending, k ∉ keysOf st.completed) :
    (emergency_stop_funding st).2.pending = [] ∧
    (emergency_stop_funding st).2.completed.length =
      st.completed.length + st.pending.length ∧
    (∀ p ∈ (emergency_stop_funding st).2.completed,
      p.1 ∈ keysOf st.pending → p.2.funding_transaction.status = "stopped") ∧
    (emergency_stop_funding st).1.stopped_transactions = st.pending.length := by
  have happ := stop_completed_eq_append hnodup hdisj
  refine ⟨rfl, ?_, ?_, rfl⟩
  · rw [happ]
    simp
  · intro p hp hkp
    rw [happ] at hp
    rcases List.mem_append.mp hp with h1 | h1
    · exact absurd (List.mem_map_of_mem Prod.fst h1) (hdisj p.1 hkp)
    · obtain ⟨q, hq, hpq⟩ := List.mem_map.mp h1
      rw [← hpq]
      rfl

/-- Witness for C5: emergency stop on the one-entry state. -/
theorem C5_witness :
    (emergency_stop_funding stPartial).2.pending = [] ∧
    (emergency_stop_funding stPartial).2.completed.length = 1 ∧
    (emergency_stop_funding stPartial).1.stopped_transactions = 1 := by
  have h := C5_theorem stPartial (by simp [stPartial, keysOf]) (by simp [stPartial, keysOf])
  refine ⟨h.1, ?_, ?_⟩
  · rw [h.2.1]
    rfl
  · rw [h.2.2.2]
    rfl

/-- C6: the claim fails as stated: a fault on the balance-check (or
submission) path is caught inside `distribute_funding`, which returns
`None`, and `process_message` then reports `funding_failed` — not an
`error` outcome as the claim requires.  (The state, and hence the pending
partition, is unchanged.) -/
theorem C6_counterexample :
    process_message defaultConfig bcBadBalance 0 (.event eFire) initState =
      (.funding_failed, initState) := by
  simp only [process_message, distribute_funding_of_error checked_badBalance]

/-- C6 (amended): faults during event parsing are caught at the
`process_message` boundary and surface as an `error` outcome carrying the
description; faults later on the path (balance query, transfer submission)
are caught inside `distribute_funding` and surface as `funding_failed`.
In both cases processing returns normally and the whole state — in
particular the pending partition — is unchanged, so no half-constructed
disbursement is left behind. -/
theorem C6_theorem (cfg : Config) (bc : Blockchain) (now : ℚ) (st : AgentState) :
    (∀ err, process_message cfg bc now (.badEvent err) st = (.error err, st)) ∧
    (∀ e msg, distribute_funding_checked cfg bc now e st = .error msg →
      process_message cfg bc now (.event e) st = (.funding_failed, st)) := by
  refine ⟨fun err => rfl, fun e msg h => ?_⟩
  simp only [process_message, distribute_funding_of_error h]

/-- Witness for C6: a parse fault and a balance-query fault, both from the
empty state. -/
theorem C6_witness :
    process_message defaultConfig bcBadBalance 0 (.badEvent "boom") initState =
      (.error "boom", initState) ∧
    process_message defaultConfig bcBadBalance 0 (.event eFire) initState =
      (.funding_failed, initState) :=
  ⟨(C6_theorem defaultConfig bcBadBalance 0 initState).1 "boom",
   (C6_theorem defaultConfig bcBadBalance 0 initState).2 eFire "rpc down" checked_badBalance⟩

/-- C7: the claim fails in general: with `max_funding_amount = 0.0000016`
(not an integer multiple of 10⁻⁶) the amount clamped to the ceiling is
rounded UP to 0.000002 > max by the final 6-digit rounding, and a
disbursement exceeding the maximum is created. -/
theorem C7_counterexample :
    calculate_funding_amount cfgRound eCasualty = 1/500000 ∧
    cfgRound.max_funding_amount < 1/500000 ∧
    Option.map (fun ft => ft.total_amount)
      (distribute_funding cfgRound bcOK 0 eCasualty initState).1 = some (1/500000) := by
  refine ⟨calc_round, by norm_num [cfgRound], ?_⟩
  exact dist_round_general bcOK 0 initState 10 [⟨some "h1"⟩] rfl (by norm_num) rfl

/-- C7 (amended): whenever a disbursement is created its amount is at least
`min_funding_amount` (unconditionally, by the rejection check), and at most
`max_funding_amount` provided the maximum is an integer multiple of 10⁻⁶
and min ≤ max — the final 6-digit rounding can otherwise push the amount
above the ceiling.  The end-to-end scenario (min 0.000001, max 0.000005)
does hold: the disbursement is initiated at exactly 0.000005. -/
theorem C7_theorem :
    (∀ (cfg : Config) (bc : Blockchain) (now : ℚ) (e : VerifiedEvent) (st : AgentState)
      (n : ℤ) (ft : FundingTransaction),
      (n : ℚ) = 1000000 * cfg.max_funding_amount →
      cfg.min_funding_amount ≤ cfg.max_funding_amount →
      (distribute_funding cfg bc now e st).1 = some ft →
      cfg.min_funding_amount ≤ ft.total_amount ∧
        ft.total_amount ≤ cfg.max_funding_amount) ∧
    (∀ (bc : Blockchain) (now : ℚ) (st : AgentState) (b : ℚ) (rs : List TxResult),
      bc.get_balance = .ok b → (1:ℚ)/200000 ≤ b →
      bc.send_multiple_transactions (bc.calculate_recipient_amounts (1/200000)
        (bc.get_default_recipients "casualty")) = .ok rs →
      Option.map (fun ft => ft.total_amount)
        (distribute_funding cfgScenario bc now eCasualty st).1 = some (1/200000)) := by
  constructor
  · intro cfg bc now e st n ft hn hmm hft
    obtain ⟨htot, hmin⟩ := distribute_funding_total ft hft
    rw [htot]
    exact ⟨hmin, calculate_le_max cfg e hn hmm⟩
  · exact dist_scenario_general

/-- Witness for C7: the bound at the scenario configuration, and the
scenario disbursement at exactly 0.000005. -/
theorem C7_witness :
    (cfgScenario.min_funding_amount ≤ ftScen.total_amount ∧
      ftScen.total_amount ≤ cfgScenario.max_funding_amount) ∧
    Option.map (fun ft => ft.total_amount)
      (distribute_funding cfgScenario bcOK 0 eCasualty initState).1 = some (1/200000) :=
  ⟨C7_theorem.1 cfgScenario bcOK 0 eCasualty initState 5 ftScen
      (by norm_num [cfgScenario]) (by norm_num [cfgScenario]) (by rw [dist_scenario_eq]),
   C7_theorem.2 bcOK 0 initState 10 [⟨some "h1"⟩] rfl (by norm_num) rfl⟩

/-- C8: the claim fails: an entry with status `stopped` sits in the
completed partition but is not counted by the status histogram
(`status_counts` only has the keys `confirmed`, `failed`, `timeout`), so
the histogram's counts sum to 0 while the completed partition has 1
entry. -/
theorem C8_counterexample :
    (get_funding_stats stStopped).confirmed_count +
      (get_funding_stats stStopped).failed_count +
      (get_funding_stats stStopped).timeout_count = 0 ∧
    (get_funding_stats stStopped).completed_transactions = 1 :=
  ⟨rfl, rfl⟩

/-- C8 (amended): the status histogram covers exactly the completed entries
whose status is `confirmed`, `failed` or `timeout`: its counts sum to the
number of such entries — not to the size of the completed partition, since
entries with any other status (such as `stopped`) are omitted. -/
theorem C8_theorem (st : AgentState) :
    (get_funding_stats st).confirmed_count + (get_funding_stats st).failed_count +
      (get_funding_stats st).timeout_count =
    st.completed.countP (fun p => p.2.funding_transaction.status = "confirmed" ∨
      p.2.funding_transaction.status = "failed" ∨
      p.2.funding_transaction.status = "timeout") := by
  simp only [get_funding_stats]
  induction st.completed with
  | nil => simp
  | cons p l ih =>
    simp only [List.countP_cons]
    by_cases h1 : p.2.funding_transaction.status = "confirmed" <;>
      by_cases h2 : p.2.funding_transaction.status = "failed" <;>
        by_cases h3 : p.2.funding_transaction.status = "timeout" <;>
          simp_all <;> omega

/-- C9: a fault raised while checking one pending entry leaves that entry
in the pending partition with unchanged data, while every other entry is
still processed according to its own per-entry outcome (terminal entries
move to completed, the rest stay pending); the sweep is a total function,
so the fault does not propagate or abort it. -/
theorem C9_theorem (cfg : Config) (bc : Blockchain) (now : ℚ) (st : AgentState)
    (id : Nat) (td : TxData) (msg : String)
    (hnodup : (keysOf st.pending).Nodup)
    (hdisj : ∀ k ∈ keysOf st.pending, k ∉ keysOf st.completed)
    (hmem : (id, td) ∈ st.pending)
    (hfault : sweepEntryChecked cfg bc now td = .error msg) :
    (id, td) ∈ (check_pending_transactions cfg bc now st).pending ∧
    (∀ id2 td2 td3, (id2, td2) ∈ st.pending → sweepEntry cfg bc now td2 = (td3, true) →
      (id2, td3) ∈ (check_pending_transactions cfg bc now st).completed) ∧
    (∀ id2 td2 td3, (id2, td2) ∈ st.pending → sweepEntry cfg bc now td2 = (td3, false) →
      (id2, td3) ∈ (check_pending_transactions cfg bc now st).pending) := by
  refine ⟨mem_sweepKept hmem (sweepEntry_of_checked_error hfault), ?_, ?_⟩
  · intro id2 td2 td3 hm hsw
    rw [sweep_completed_eq_append hnodup hdisj]
    exact List.mem_append_right _ (mem_sweepMoved hm hsw)
  · intro id2 td2 td3 hm hsw
    exact mem_sweepKept hm hsw

/-- Witness for C9: a two-entry state where one entry's status query faults
(`hX` is unknown to the ledger): the faulted entry stays pending unchanged
while the other entry is confirmed and moved. -/
theorem C9_witness :
    (1, tdFault) ∈ (check_pending_transactions defaultConfig bcOK 5 stTwo).pending ∧
    (0, setStatus "confirmed" tdPartial) ∈
      (check_pending_transactions defaultConfig bcOK 5 stTwo).completed := by
  have h := C9_theorem defaultConfig bcOK 5 stTwo 1 tdFault "unknown hash"
    (by simp [stTwo, keysOf]) (by simp [stTwo, keysOf]) (by simp [stTwo]) (by rfl)
  refine ⟨h.1, h.2.1 0 tdPartial (setStatus "confirmed" tdPartial) (by simp [stTwo]) ?_⟩
  simp only [sweepEntry, sweepEntryChecked, scanResults, bcOK, tdPartial]
  norm_num [defaultConfig]

/-- C10: `_calculate_funding_amount` is total at its interface: a fault
anywhere in the body is caught and yields `min_funding_amount` (in
particular when the `original_event` access raises on a malformed event),
each missing optional field behaves exactly as its documented `getattr`
default (`min_funding_amount`, 80, 100), and an event relying on all the
defaults still triggers a disbursement when the gateway cooperates. -/
theorem C10_theorem (cfg : Config) (e : VerifiedEvent) :
    (∀ msg, calcFundingChecked cfg e = .error msg →
      calculate_funding_amount cfg e = cfg.min_funding_amount) ∧
    (e.original_event = none →
      calculate_funding_amount cfg e = cfg.min_funding_amount) ∧
    calculate_funding_amount cfg { e with funding_recommendation := none } =
      calculate_funding_amount cfg
        { e with funding_recommendation := some cfg.min_funding_amount } ∧
    calculate_funding_amount cfg { e with verification_score := none } =
      calculate_funding_amount cfg { e with verification_score := some 80 } ∧
    calculate_funding_amount cfg { e with human_impact_estimate := none } =
      calculate_funding_amount cfg { e with human_impact_estimate := some 100 } ∧
    (∀ (bc : Blockchain) (now : ℚ) (st : AgentState) (b : ℚ) (rs : List TxResult),
      bc.get_balance = .ok b → (1:ℚ)/100 ≤ b →
      bc.send_multiple_transactions (bc.calculate_recipient_amounts (1/100)
        (bc.get_default_recipients "fire")) = .ok rs →
      Option.map (fun ft => ft.total_amount)
        (distribute_funding defaultConfig bc now eDefaults st).1 = some (1/100)) := by
  refine ⟨?_, ?_, rfl, rfl, rfl, dist_eDefaults_general⟩
  · intro msg h
    simp only [calculate_funding_amount, h]
  · intro h
    simp only [calculate_funding_amount, calcFundingChecked, h]

/-- Witness for C10: the malformed event falls back to the minimum, and the
all-defaults event funds at 0.01 against `bcOK`. -/
theorem C10_witness :
    calculate_funding_amount defaultConfig eMalformed = defaultConfig.min_funding_amount ∧
    Option.map (fun ft => ft.total_amount)
      (distribute_funding defaultConfig bcOK 0 eDefaults initState).1 = some (1/100) :=
  ⟨(C10_theorem defaultConfig eMalformed).1 "AttributeError: original_event" rfl,
   (C10_theorem defaultConfig eDefaults).2.2.2.2.2 bcOK 0 initState 10 [⟨some "h1"⟩]
     rfl (by norm_num) rfl⟩

end Treasurer
